import Mathlib

/-!
# Interactive media admin: hotspot geometry, temporal index and media status

A shallow embedding of `src/interactive_media_admin_react_preview.jsx`.

* JavaScript numbers are embedded as exact rationals (`ℚ`). Every finite double is a
  rational; rounding of `/` is not modelled. `raw.x / videoWidth` is only read where the
  divisor is non-zero (the theorems carry `0 < width`, `0 < height`), because JavaScript
  yields `Infinity`/`NaN` for a zero divisor where `ℚ` yields `0`.
* `timeStart` and `timeEnd` are integer-valued doubles, embedded as integers. The sum
  `timeStart + 10` is a sum of doubles: `jsAdd` rounds the exact integer sum to the nearest
  double (53-bit significand, ties to even), so it is exact up to `2 ^ 53` only.
* React state (`useState`) is an explicit `State` record; every handler is a function
  from the state before the event to the state after it.
* What a handler reads from outside the state (`containerRef.current`,
  `videoRef.current?.currentTime`, `Date.now()`) is an explicit `Env` record.
* Dereferencing a `null` ref (`containerRef.current.getBoundingClientRect()`) throws a
  `TypeError`; handlers that can do so return `Except Fault State`.
* `setTimeout(() => setToast(null), …)` is a timer and is not modelled; the toast text
  set by the handler itself is.
-/

namespace InteractiveMedia

/-! ## Data model -/

/-- A hotspot, `{id, x, y, w, h, timeStart, timeEnd, productId, action}` (line 23). -/
structure Hotspot where
  id : Nat
  x : ℚ
  y : ℚ
  w : ℚ
  h : ℚ
  timeStart : ℤ
  timeEnd : ℤ
  productId : String
  action : String
deriving DecidableEq

/-- A media item of `mediaList` (lines 16-25, 256-263). -/
structure MediaItem where
  id : Nat
  title : String
  thumb : String
  videoUrl : String
  status : String
  hotspots : List Hotspot
deriving DecidableEq

/-- The value of `drawStart`: `{ x, y }` in surface-local pixels. -/
structure Point where
  x : ℚ
  y : ℚ
deriving DecidableEq

/-- The value of `tempRect`: `{ x, y, w, h }` in surface-local pixels, `w`/`h` signed. -/
structure RawRect where
  x : ℚ
  y : ℚ
  w : ℚ
  h : ℚ
deriving DecidableEq

/-- The part of `getBoundingClientRect()` the handlers read. -/
structure DOMRect where
  left : ℚ
  top : ℚ
  width : ℚ
  height : ℚ
deriving DecidableEq

/-- The part of a mouse event the handlers read. -/
structure MouseEvent where
  clientX : ℚ
  clientY : ℚ
deriving DecidableEq

/-- What the handlers read from outside the React state. -/
structure Env where
  /-- The rectangle of `containerRef.current`, `none` when the ref is `null`. -/
  container : Option DOMRect
  /-- The value of `videoRef.current?.currentTime`, `none` when it is `undefined`. -/
  videoTime : Option ℚ
  /-- The value of `Date.now()`. -/
  now : Nat
deriving DecidableEq

/-- The React state of `InteractiveMediaAdminPreview` that the handlers read or write. -/
structure State where
  route : String
  mediaList : List MediaItem
  selectedMediaId : Nat
  isDrawing : Bool
  drawStart : Option Point
  tempRect : Option RawRect
  hotspots : List Hotspot
  selectedProduct : String
  selectedAction : String
  toast : Option String
deriving DecidableEq

/-- A thrown exception. -/
inductive Fault where
  | typeError
deriving DecidableEq

/-- The constant `SAMPLE_VIDEO` (line 10). -/
def SAMPLE_VIDEO : String :=
  "https://storage.googleapis.com/gtv-videos-bucket/sample/ForBiggerFun.mp4"

/-- The initial state (lines 12-50). -/
def initialState : State :=
  { route := "/dashboard"
    mediaList :=
      [{ id := 1, title := "Promo: Summer Tee"
         thumb := "https://source.unsplash.com/400x250/?man,tshirt,portrait"
         videoUrl := SAMPLE_VIDEO, status := "draft", hotspots := [] }]
    selectedMediaId := 1
    isDrawing := false
    drawStart := none
    tempRect := none
    hotspots := []
    selectedProduct := "p1"
    selectedAction := "addToCart"
    toast := none }

/-! ## Media list updates (lines 58-68, 253-267) -/

/-- The updater passed to `setMediaList` by `saveHotspotsToMedia` (line 59). -/
def saveHotspotsUpdater (mediaId : Nat) (hotspotsPayload : List Hotspot)
    (prev : List MediaItem) : List MediaItem :=
  prev.map fun m => if m.id = mediaId then { m with hotspots := hotspotsPayload } else m

/-- The updater passed to `setMediaList` by `publishMedia` (line 65). -/
def publishUpdater (mediaId : Nat) (prev : List MediaItem) : List MediaItem :=
  prev.map fun m => if m.id = mediaId then { m with status := "published" } else m

/-- The function `saveHotspotsToMedia` (lines 58-62). -/
def saveHotspotsToMedia (mediaId : Nat) (hotspotsPayload : List Hotspot) (s : State) : State :=
  { s with
    mediaList := saveHotspotsUpdater mediaId hotspotsPayload s.mediaList
    toast := some "Hotspots saved (draft)" }

/-- The function `publishMedia` (lines 64-68). -/
def publishMedia (mediaId : Nat) (s : State) : State :=
  { s with
    mediaList := publishUpdater mediaId s.mediaList
    toast := some "Video published ✅" }

/-- The media item built by `handleFileUpload` (lines 256-263). -/
def newMedia (now : Nat) (fileName : String) : MediaItem :=
  { id := now, title := fileName
    thumb := "https://source.unsplash.com/400x250/?product,studio"
    videoUrl := SAMPLE_VIDEO, status := "draft", hotspots := [] }

/-- The handler `MediaPage.handleFileUpload` (lines 253-267); `file` is the name of
`e.target.files?.[0]`, `none` when there is no file. -/
def handleFileUpload (file : Option String) (env : Env) (s : State) : State :=
  match file with
  | none => s
  | some name =>
    { s with
      mediaList := newMedia env.now name :: s.mediaList
      toast := some "Video uploaded (mock)" }

/-! ## Drawing (lines 71-126) -/

/-- The handler `onMouseDown` (lines 71-79). -/
def onMouseDown (env : Env) (e : MouseEvent) (s : State) : Except Fault State :=
  if s.route ≠ "/designer" then .ok s
  else
    match env.container with
    | none => .error .typeError
    | some rect =>
      let x := e.clientX - rect.left
      let y := e.clientY - rect.top
      .ok { s with
            isDrawing := true
            drawStart := some { x := x, y := y }
            tempRect := some { x := x, y := y, w := 0, h := 0 } }

/-- The handler `onMouseMove` (lines 81-91). -/
def onMouseMove (env : Env) (e : MouseEvent) (s : State) : Except Fault State :=
  if !s.isDrawing then .ok s
  else
    match env.container with
    | none => .error .typeError
    | some rect =>
      let x := e.clientX - rect.left
      let y := e.clientY - rect.top
      match s.drawStart with
      | none => .error .typeError
      | some start =>
        let sx := start.x
        let sy := start.y
        let w := x - sx
        let h := y - sy
        .ok { s with tempRect := some { x := sx, y := sy, w := w, h := h } }

/-- The expression `videoRef.current?.currentTime || 0` (line 108): `undefined` and `0`
both give `0`. -/
def currentTimeOr0 (videoTime : Option ℚ) : ℚ :=
  match videoTime with
  | none => 0
  | some t => if t = 0 then 0 else t

/-- The value of `timeStart` (line 108): `Math.max(0, Math.floor(currentTime || 0))`. -/
def timeStartOf (videoTime : Option ℚ) : ℤ :=
  max 0 ⌊currentTimeOr0 videoTime⌋

/-- The spacing of the doubles around the natural number `n`, searched upward from `u`:
the least `u * 2 ^ k` with `n < 2 ^ 53 * (u * 2 ^ k)`, trying at most `fuel` doublings. -/
def ulpFrom : Nat → Nat → Nat → Nat
  | 0, _, u => u
  | fuel + 1, n, u => if n < 2 ^ 53 * u then u else ulpFrom fuel n (2 * u)

/-- The spacing of the doubles around the natural number `n`: `1` below `2 ^ 53`, `2` from
there below `2 ^ 54`, and so on. The 1024 doublings reach past the largest finite
double. -/
def doubleUlp (n : Nat) : Nat :=
  ulpFrom 1024 n 1

/-- The double nearest to the natural number `n`, ties going to the even significand. -/
def roundNatToDouble (n : Nat) : Nat :=
  let u := doubleUlp n
  let q := n / u
  let r := n % u
  if 2 * r < u then q * u
  else if u < 2 * r then (q + 1) * u
  else if q % 2 = 0 then q * u
  else (q + 1) * u

/-- The double nearest to the integer `z`; rounding is symmetric in the sign. -/
def roundToDouble (z : ℤ) : ℤ :=
  if 0 ≤ z then (roundNatToDouble z.toNat : ℤ) else -(roundNatToDouble (-z).toNat : ℤ)

/-- The JavaScript `a + b` of two integer-valued doubles: the exact sum rounded to the
nearest double. -/
def jsAdd (a b : ℤ) : ℤ :=
  roundToDouble (a + b)

/-- The object `newHotspot` of `onMouseUp` (lines 102-121). -/
def newHotspot (env : Env) (rect : DOMRect) (raw : RawRect) (s : State) : Hotspot :=
  let videoWidth := rect.width
  let videoHeight := rect.height
  let nx := max 0 (min 1 (raw.x / videoWidth))
  let ny := max 0 (min 1 (raw.y / videoHeight))
  let nw := max 0 (min 1 (raw.w / videoWidth))
  let nh := max 0 (min 1 (raw.h / videoHeight))
  let timeStart := timeStartOf env.videoTime
  let timeEnd := jsAdd timeStart 10
  { id := env.now, x := nx, y := ny, w := nw, h := nh
    timeStart := timeStart, timeEnd := timeEnd
    productId := s.selectedProduct, action := s.selectedAction }

/-- The handler `onMouseUp` (lines 93-126). The read of `containerRef.current` (line 97)
comes before the test of `tempRect` (line 101); when it throws, the state the handler
leaves is not part of the result. -/
def onMouseUp (env : Env) (s : State) : Except Fault State :=
  if !s.isDrawing then .ok s
  else
    match env.container with
    | none => .error .typeError
    | some rect =>
      match s.tempRect with
      | none => .ok { s with isDrawing := false }
      | some raw =>
        let next := s.hotspots ++ [newHotspot env rect raw s]
        .ok (saveHotspotsToMedia s.selectedMediaId next
              { s with isDrawing := false, hotspots := next, tempRect := none })

/-! ## Designer list and preview (lines 364, 394) -/

/-- The filter of the Delete button (line 364): `hotspots.filter(x => x.id !== h.id)`. -/
def deleteFilter (hid : Nat) (hotspots : List Hotspot) : List Hotspot :=
  hotspots.filter fun x => x.id != hid

/-- The `onClick` of the Delete button (line 364) for the media item `mediaId` and the
hotspot id `hid`. -/
def onDeleteClick (mediaId : Nat) (hid : Nat) (s : State) : State :=
  let next := deleteFilter hid s.hotspots
  saveHotspotsToMedia mediaId next { s with hotspots := next }

/-- The value `activeHotspots` of `PreviewPage` (line 394). -/
def activeHotspots (hotspots : List Hotspot) (currentTime : ℤ) : List Hotspot :=
  hotspots.filter fun h => decide (currentTime ≥ h.timeStart) && decide (currentTime ≤ h.timeEnd)

/-! ## Rendering (lines 155-178, 414-432) -/

/-- The `style` of a rendered hotspot button: `{ left, top, width, height }` in pixels. -/
structure PixelRect where
  left : ℚ
  top : ℚ
  width : ℚ
  height : ℚ
deriving DecidableEq

/-- The function `renderHotspotsFor` (lines 155-178), as the list of the buttons' styles;
`none` is the `null` it returns without a media item or without a container. -/
def renderHotspotsFor (env : Env) (media : Option MediaItem) : Option (List PixelRect) :=
  match media with
  | none => none
  | some media =>
    match env.container with
    | none => none
    | some rect =>
      let vw := rect.width
      let vh := rect.height
      some (media.hotspots.map fun h =>
        let left := h.x * vw
        let top := h.y * vh
        let width := max 8 (|h.w| * vw)
        let height := max 8 (|h.h| * vh)
        { left := left, top := top, width := width, height := height })

/-- The overlay of `PreviewPage` (lines 394, 414-432), as the list of the buttons' styles,
one entry per active hotspot; `none` is the `null` rendered without a container. -/
def previewOverlay (env : Env) (media : MediaItem) (currentTime : ℤ) :
    List (Option PixelRect) :=
  (activeHotspots media.hotspots currentTime).map fun h =>
    match env.container with
    | none => none
    | some rect =>
      let left := h.x * rect.width
      let top := h.y * rect.height
      let width := max 8 (|h.w| * rect.width)
      let height := max 8 (|h.h| * rect.height)
      some { left := left, top := top, width := width, height := height }

/-! ## Sequences of events -/

/-- A whole drag: `onMouseDown`, then one `onMouseMove` per event of `moves`, then
`onMouseUp`, each handler running on the state the previous one left. -/
def drag (env : Env) (down : MouseEvent) (moves : List MouseEvent) (s : State) :
    Except Fault State := do
  let s1 ← onMouseDown env down s
  let s2 ← moves.foldlM (fun st e => onMouseMove env e st) s1
  onMouseUp env s2

/-- The provisional rectangle a drag leaves in `tempRect`: anchored where the button went
down, sized by the last move, of size zero when there was no move. -/
def dragRect (rect : DOMRect) (down : MouseEvent) (moves : List MouseEvent) : RawRect :=
  let ax := down.clientX - rect.left
  let ay := down.clientY - rect.top
  match moves.getLast? with
  | none => { x := ax, y := ay, w := 0, h := 0 }
  | some e =>
    { x := ax, y := ay, w := e.clientX - rect.left - ax, h := e.clientY - rect.top - ay }

/-- The operations that call `setMediaList`. -/
inductive MediaOp where
  | save (mediaId : Nat) (hotspotsPayload : List Hotspot)
  | publish (mediaId : Nat)
  | upload (file : Option String) (env : Env)

/-- One operation on the state. -/
def MediaOp.run : MediaOp → State → State
  | .save mediaId hotspotsPayload, s => saveHotspotsToMedia mediaId hotspotsPayload s
  | .publish mediaId, s => publishMedia mediaId s
  | .upload file env, s => handleFileUpload file env s

/-- A sequence of operations, first to last. -/
def runOps (ops : List MediaOp) (s : State) : State :=
  ops.foldl (fun st op => op.run st) s

/-- The number of items an operation puts in front of the media list: one for an upload
with a file, none otherwise. -/
def MediaOp.prepended : MediaOp → Nat
  | .upload (some _) _ => 1
  | _ => 0

/-- The number of items a sequence of operations puts in front of the media list. -/
def prependedBy (ops : List MediaOp) : Nat :=
  (ops.map MediaOp.prepended).sum

/-! ## The specification's wording -/

/-- The specification's `clamp(v, lo, hi)`. -/
def clamp (v lo hi : ℚ) : ℚ :=
  if v < lo then lo else if hi < v then hi else v

/-- The specification's `timeStart = floor(max(0, currentTimeSeconds))`. -/
def specTimeStart (currentTimeSeconds : ℚ) : ℤ :=
  ⌊max 0 currentTimeSeconds⌋

/-- The specification's rendering of a hotspot to absolute pixels on a surface of width
`surfaceWidth` and height `surfaceHeight`, with the floor `minPixelSize`. -/
def specPixelRect (minPixelSize : ℚ) (h : Hotspot) (surfaceWidth surfaceHeight : ℚ) :
    PixelRect :=
  { left := h.x * surfaceWidth
    top := h.y * surfaceHeight
    width := max minPixelSize (|h.w| * surfaceWidth)
    height := max minPixelSize (|h.h| * surfaceHeight) }

/-! ## Concrete inputs -/

/-- The designer surface: 800 by 450 pixels (line 316), placed at (40, 60). -/
def designerRect : DOMRect :=
  { left := 40, top := 60, width := 800, height := 450 }

/-- The designer surface mounted, the video at 12.7 seconds. -/
def designerEnv : Env :=
  { container := some designerRect, videoTime := some (127 / 10), now := 1700000000000 }

/-- The initial state on the designer page with product `p2` selected. -/
def designerState : State :=
  { initialState with route := "/designer", selectedProduct := "p2" }

/-- A mouse event at the surface-local point `(x, y)` of the designer surface. -/
def eventAt (x y : ℚ) : MouseEvent :=
  { clientX := designerRect.left + x, clientY := designerRect.top + y }

/-- The designer surface not mounted: `containerRef.current` is `null`. -/
def unmountedEnv : Env :=
  { designerEnv with container := none }

/-- The designer state in the middle of a drag from (100, 100) to (300, 250). -/
def drawingState : State :=
  { designerState with
    isDrawing := true
    drawStart := some { x := 100, y := 100 }
    tempRect := some { x := 100, y := 100, w := 200, h := 150 } }

end InteractiveMedia

namespace InteractiveMedia

/-! ## Shared lemmas -/

theorem clamp01_bounds (v : ℚ) : 0 ≤ max 0 (min 1 v) ∧ max 0 (min 1 v) ≤ 1 :=
  ⟨le_max_left _ _, max_le zero_le_one (min_le_left _ _)⟩

theorem roundNatToDouble_small (n : Nat) (h : n < 2 ^ 53) : roundNatToDouble n = n := by
  have hu : doubleUlp n = 1 := by
    have h' : n < 2 ^ 53 * 1 := by omega
    rw [doubleUlp, show (1024 : Nat) = 1023 + 1 from rfl, ulpFrom, if_pos h']
  simp [roundNatToDouble, hu, Nat.mod_one]

theorem roundNatToDouble_two_pow : roundNatToDouble (2 ^ 53) = 2 ^ 53 := by
  decide

theorem jsAdd_exact (a b : ℤ) (h0 : 0 ≤ a + b) (h1 : a + b ≤ 2 ^ 53) :
    jsAdd a b = a + b := by
  unfold jsAdd roundToDouble
  rw [if_pos h0]
  rcases lt_or_eq_of_le h1 with hlt | heq
  · have hn : (a + b).toNat < 2 ^ 53 := by omega
    rw [roundNatToDouble_small _ hn]
    exact Int.toNat_of_nonneg h0
  · rw [heq]
    have : ((2 : ℤ) ^ 53).toNat = 2 ^ 53 := by decide
    rw [this, roundNatToDouble_two_pow]
    norm_num

theorem jsAdd_demo : jsAdd 12 10 = 22 :=
  jsAdd_exact 12 10 (by norm_num) (by norm_num)

theorem onMouseUp_active (env : Env) (s : State) (rect : DOMRect) (raw : RawRect)
    (hdraw : s.isDrawing = true) (hrect : env.container = some rect)
    (hraw : s.tempRect = some raw) :
    onMouseUp env s = .ok (saveHotspotsToMedia s.selectedMediaId
      (s.hotspots ++ [newHotspot env rect raw s])
      { s with
        isDrawing := false
        hotspots := s.hotspots ++ [newHotspot env rect raw s]
        tempRect := none }) := by
  simp [onMouseUp, hdraw, hrect, hraw]

theorem onMouseUp_active_hotspots (env : Env) (s : State) (rect : DOMRect) (raw : RawRect)
    (hdraw : s.isDrawing = true) (hrect : env.container = some rect)
    (hraw : s.tempRect = some raw) :
    ∃ s', onMouseUp env s = .ok s' ∧
      s'.hotspots = s.hotspots ++ [newHotspot env rect raw s] :=
  ⟨_, onMouseUp_active env s rect raw hdraw hrect hraw, rfl⟩

theorem onMouseMove_fold (env : Env) (rect : DOMRect) (start : Point)
    (hrect : env.container = some rect) (moves : List MouseEvent) :
    ∀ s : State, s.isDrawing = true → s.drawStart = some start →
      moves.foldlM (fun st e => onMouseMove env e st) s =
        .ok { s with
              tempRect :=
                match moves.getLast? with
                | none => s.tempRect
                | some e =>
                  some { x := start.x, y := start.y, w := e.clientX - rect.left - start.x
                         h := e.clientY - rect.top - start.y } } := by
  induction moves with
  | nil => intro s _ _; rfl
  | cons e l ih =>
    intro s hdraw hstart
    have hstep : onMouseMove env e s =
        .ok { s with tempRect := some { x := start.x, y := start.y
                                        w := e.clientX - rect.left - start.x
                                        h := e.clientY - rect.top - start.y } } := by
      simp [onMouseMove, hdraw, hrect, hstart]
    rw [List.foldlM_cons, hstep]
    simp only [bind, Except.bind]
    rw [ih { s with tempRect := some { x := start.x, y := start.y
                                       w := e.clientX - rect.left - start.x
                                       h := e.clientY - rect.top - start.y } } hdraw hstart]
    cases hl : l.getLast? with
    | none =>
      have : l = [] := List.getLast?_eq_none_iff.mp hl
      subst this
      rfl
    | some e' =>
      have : (e :: l).getLast? = some e' := by
        rw [List.getLast?_cons, hl]; rfl
      rw [this]

theorem drag_designer_eq (env : Env) (s : State) (rect : DOMRect) (down : MouseEvent)
    (moves : List MouseEvent) (hroute : s.route = "/designer")
    (hrect : env.container = some rect) :
    drag env down moves s =
      onMouseUp env
        { s with
          isDrawing := true
          drawStart := some { x := down.clientX - rect.left, y := down.clientY - rect.top }
          tempRect := some (dragRect rect down moves) } := by
  have hdown : onMouseDown env down s =
      .ok { s with
            isDrawing := true
            drawStart := some { x := down.clientX - rect.left, y := down.clientY - rect.top }
            tempRect := some { x := down.clientX - rect.left, y := down.clientY - rect.top
                               w := 0, h := 0 } } := by
    simp [onMouseDown, hroute, hrect]
  unfold drag
  rw [hdown]
  simp only [bind, Except.bind]
  rw [onMouseMove_fold env rect _ hrect moves _ rfl rfl]
  simp only [Except.bind]
  unfold dragRect
  cases moves.getLast? <;> rfl

theorem drag_designer (env : Env) (s : State) (rect : DOMRect) (down : MouseEvent)
    (moves : List MouseEvent) (hroute : s.route = "/designer")
    (hrect : env.container = some rect) :
    ∃ s', drag env down moves s = .ok s' ∧
      s'.hotspots = s.hotspots ++ [newHotspot env rect (dragRect rect down moves) s] := by
  rw [drag_designer_eq env s rect down moves hroute hrect]
  exact onMouseUp_active_hotspots env _ rect (dragRect rect down moves) rfl hrect rfl

/-! ## C1 -/

/-- C1: with a drag session active (any provisional rectangle, hence any anchor and final
pointer) and a surface of positive width and height, `onMouseUp` commits one hotspot and
each of its `x`, `y`, `w`, `h` lies in the closed interval [0, 1]. -/
theorem onMouseUp_commit_unit_interval (env : Env) (s : State) (rect : DOMRect)
    (raw : RawRect) (hdraw : s.isDrawing = true) (hraw : s.tempRect = some raw)
    (hrect : env.container = some rect) (hw : 0 < rect.width) (hh : 0 < rect.height) :
    ∃ s' hs, onMouseUp env s = .ok s' ∧ s'.hotspots = s.hotspots ++ [hs] ∧
      (0 ≤ hs.x ∧ hs.x ≤ 1) ∧ (0 ≤ hs.y ∧ hs.y ≤ 1) ∧
      (0 ≤ hs.w ∧ hs.w ≤ 1) ∧ (0 ≤ hs.h ∧ hs.h ≤ 1) := by
  obtain ⟨s', hok, hhs⟩ := onMouseUp_active_hotspots env s rect raw hdraw hrect hraw
  exact ⟨s', _, hok, hhs, clamp01_bounds _, clamp01_bounds _, clamp01_bounds _,
    clamp01_bounds _⟩

theorem onMouseUp_commit_unit_interval_witness :
    (0 : ℚ) < designerRect.width ∧ (0 : ℚ) < designerRect.height ∧
    ∃ s' hs, onMouseUp designerEnv drawingState = .ok s' ∧
      s'.hotspots = drawingState.hotspots ++ [hs] ∧
      (0 ≤ hs.x ∧ hs.x ≤ 1) ∧ (0 ≤ hs.y ∧ hs.y ≤ 1) ∧
      (0 ≤ hs.w ∧ hs.w ≤ 1) ∧ (0 ≤ hs.h ∧ hs.h ≤ 1) :=
  ⟨by norm_num [designerRect], by norm_num [designerRect],
    onMouseUp_commit_unit_interval designerEnv drawingState designerRect
      { x := 100, y := 100, w := 200, h := 150 } rfl rfl rfl
      (by norm_num [designerRect]) (by norm_num [designerRect])⟩

/-! ## C2 -/

theorem activeHotspots_eq_filter (hs : List Hotspot) (t : ℤ) :
    activeHotspots hs t = hs.filter fun h => decide (h.timeStart ≤ t ∧ t ≤ h.timeEnd) := by
  unfold activeHotspots
  congr 1
  funext h
  simp [Bool.decide_and]

/-- C2: `activeHotspots hs t` is the one list that is a sublist of `hs` (same relative
order), holds only hotspots with `timeStart ≤ t ≤ timeEnd`, and holds each such hotspot as
often as `hs` does; a hotspot with `timeStart = 12`, `timeEnd = 22` alone is kept at
`t = 22` and dropped at `t = 23`. -/
theorem activeHotspots_exact (hs : List Hotspot) (t : ℤ) :
    (∀ l : List Hotspot, l = activeHotspots hs t ↔
      (l.Sublist hs ∧ (∀ h ∈ l, h.timeStart ≤ t ∧ t ≤ h.timeEnd) ∧
        ∀ h : Hotspot, h.timeStart ≤ t ∧ t ≤ h.timeEnd → l.count h = hs.count h)) ∧
    (∀ h : Hotspot,
      activeHotspots [{ h with timeStart := 12, timeEnd := 22 }] 22
        = [{ h with timeStart := 12, timeEnd := 22 }] ∧
      activeHotspots [{ h with timeStart := 12, timeEnd := 22 }] 23 = []) := by
  refine ⟨fun l => ⟨?_, ?_⟩, fun h => ⟨by simp [activeHotspots], by simp [activeHotspots]⟩⟩
  · rintro rfl
    rw [activeHotspots_eq_filter]
    refine ⟨List.filter_sublist _, ?_, ?_⟩
    · intro h hh
      simpa using (List.mem_filter.mp hh).2
    · intro h hh
      rw [List.count_filter]
      simpa using hh
  · rintro ⟨hsub, hall, hcount⟩
    rw [activeHotspots_eq_filter]
    have hl : l.filter (fun h => decide (h.timeStart ≤ t ∧ t ≤ h.timeEnd)) = l :=
      List.filter_eq_self.mpr fun h hh => by simpa using hall h hh
    have hsub' : l.Sublist (hs.filter fun h => decide (h.timeStart ≤ t ∧ t ≤ h.timeEnd)) := by
      have := hsub.filter (fun h => decide (h.timeStart ≤ t ∧ t ≤ h.timeEnd))
      rwa [hl] at this
    have hperm : l.Perm (hs.filter fun h => decide (h.timeStart ≤ t ∧ t ≤ h.timeEnd)) := by
      rw [List.perm_iff_count]
      intro h
      by_cases hp : h.timeStart ≤ t ∧ t ≤ h.timeEnd
      · rw [List.count_filter (by simpa using hp)]
        exact hcount h hp
      · have h1 : l.count h = 0 := List.count_eq_zero.mpr fun hh => hp (hall h hh)
        have h2 : (hs.filter fun h => decide (h.timeStart ≤ t ∧ t ≤ h.timeEnd)).count h = 0 :=
          List.count_eq_zero.mpr fun hh => hp (by simpa using (List.mem_filter.mp hh).2)
        rw [h1, h2]
    exact hsub'.eq_of_length hperm.length_eq

/-! ## C3 -/

theorem deleteFilter_length (hs : List Hotspot) (hid : Nat) :
    (deleteFilter hid hs).length + (hs.map (·.id)).count hid = hs.length := by
  induction hs with
  | nil => rfl
  | cons a l ih =>
    unfold deleteFilter at ih ⊢
    by_cases h : a.id = hid
    · simp [List.filter_cons, h] at ih ⊢
      omega
    · have h' : ¬ hid = a.id := fun e => h e.symm
      simp [List.filter_cons, h, List.count_cons, h'] at ih ⊢
      omega

/-- C3, as stated, fails: two clicks on the designer surface handled within the same
millisecond (`Date.now()` equal) commit two hotspots with one id, and deleting by that id
removes both, two entries instead of one. -/
theorem deleteFilter_same_millisecond_removes_two :
    ∃ h1 h2 : Hotspot,
      (drag designerEnv (eventAt 10 10) [] designerState
        >>= drag designerEnv (eventAt 50 50) []).map (·.hotspots) = .ok [h1, h2] ∧
      designerEnv.now ∈ [h1, h2].map (·.id) ∧
      deleteFilter designerEnv.now [h1, h2] = [] ∧
      (deleteFilter designerEnv.now [h1, h2]).length + 1 ≠ [h1, h2].length := by
  refine ⟨newHotspot designerEnv designerRect
      (dragRect designerRect (eventAt 10 10) []) designerState,
    newHotspot designerEnv designerRect
      (dragRect designerRect (eventAt 50 50) []) designerState, ?_, ?_, ?_, ?_⟩
  · rw [drag_designer_eq designerEnv designerState designerRect (eventAt 10 10) [] rfl rfl]
    rw [onMouseUp_active designerEnv _ designerRect _ rfl rfl rfl]
    simp only [bind, Except.bind]
    rw [drag_designer_eq designerEnv _ designerRect (eventAt 50 50) [] rfl rfl]
    rw [onMouseUp_active designerEnv _ designerRect _ rfl rfl rfl]
    rfl
  · simp [newHotspot]
  · simp [deleteFilter, newHotspot]
  · simp [deleteFilter, newHotspot]

/-- C3, amended: when the id occurs exactly once in the collection, deleting by it yields
exactly one entry fewer, the result is a sublist of the collection (original relative
order), no entry of the result has the id, and every hotspot with another id is kept as
often as it occurred. -/
theorem deleteFilter_unique_id (hs : List Hotspot) (hid : Nat)
    (honce : (hs.map (·.id)).count hid = 1) :
    (deleteFilter hid hs).length + 1 = hs.length ∧
    (deleteFilter hid hs).Sublist hs ∧
    (∀ h ∈ deleteFilter hid hs, h.id ≠ hid) ∧
    (∀ h : Hotspot, h.id ≠ hid → (deleteFilter hid hs).count h = hs.count h) := by
  refine ⟨?_, List.filter_sublist _, ?_, ?_⟩
  · have := deleteFilter_length hs hid
    omega
  · intro h hh
    simpa [deleteFilter] using (List.mem_filter.mp hh).2
  · intro h hne
    unfold deleteFilter
    rw [List.count_filter]
    simpa using hne

theorem deleteFilter_unique_id_witness :
    ((drawingState.hotspots ++ [newHotspot designerEnv designerRect ⟨1, 2, 3, 4⟩ designerState,
        { newHotspot designerEnv designerRect ⟨1, 2, 3, 4⟩ designerState with id := 5 }]).map
      (·.id)).count 5 = 1 ∧
    (deleteFilter 5 (drawingState.hotspots ++
        [newHotspot designerEnv designerRect ⟨1, 2, 3, 4⟩ designerState,
        { newHotspot designerEnv designerRect ⟨1, 2, 3, 4⟩ designerState with id := 5 }])).length
      + 1 = 2 :=
  ⟨by simp [drawingState, designerState, initialState, newHotspot, designerEnv],
    (deleteFilter_unique_id _ 5
      (by simp [drawingState, designerState, initialState, newHotspot, designerEnv])).1⟩

/-! ## C4 -/

theorem floor_max_zero (t : ℚ) : max 0 ⌊t⌋ = ⌊max 0 t⌋ := by
  rw [(@Int.floor_mono ℚ _ _).map_max]
  simp

theorem currentTimeOr0_some (t : ℚ) : currentTimeOr0 (some t) = t := by
  show (if t = 0 then 0 else t) = t
  split_ifs with h
  · exact h.symm
  · rfl

theorem floor_ten_pow_eighteen : ⌊((10 : ℚ) ^ 18)⌋ = 10 ^ 18 := by
  rw [Int.floor_eq_iff]
  norm_num

theorem floor_below_two_pow : ⌊((2 : ℚ) ^ 53 - 9)⌋ = 2 ^ 53 - 9 := by
  rw [Int.floor_eq_iff]
  norm_num

/-- C4, as stated, fails: `timeStart + 10` is a sum of doubles. At the playback time
`10 ^ 18` the committed hotspot has `timeStart = 10 ^ 18` and `timeEnd = 10 ^ 18`, so
`timeEnd - timeStart = 0`; at `2 ^ 53 - 9` it has `timeEnd = 2 ^ 53`, so
`timeEnd - timeStart = 9`. -/
theorem onMouseUp_time_window_not_ten :
    (∃ s' hs, onMouseUp { designerEnv with videoTime := some (10 ^ 18) } drawingState
        = .ok s' ∧
      s'.hotspots = drawingState.hotspots ++ [hs] ∧
      hs.timeStart = 10 ^ 18 ∧ hs.timeEnd = 10 ^ 18 ∧
      hs.timeEnd - hs.timeStart = 0 ∧ hs.timeEnd ≠ hs.timeStart + 10) ∧
    (∃ s' hs, onMouseUp { designerEnv with videoTime := some (2 ^ 53 - 9) } drawingState
        = .ok s' ∧
      s'.hotspots = drawingState.hotspots ++ [hs] ∧
      hs.timeStart = 2 ^ 53 - 9 ∧ hs.timeEnd = 2 ^ 53 ∧
      hs.timeEnd - hs.timeStart = 9 ∧ hs.timeEnd ≠ hs.timeStart + 10) := by
  have hstartA : timeStartOf (some ((10 : ℚ) ^ 18)) = 10 ^ 18 := by
    rw [timeStartOf, currentTimeOr0_some, floor_ten_pow_eighteen]
    norm_num
  have hendA : jsAdd (10 ^ 18) 10 = 10 ^ 18 := by decide
  have hstartB : timeStartOf (some ((2 : ℚ) ^ 53 - 9)) = 2 ^ 53 - 9 := by
    rw [timeStartOf, currentTimeOr0_some, floor_below_two_pow]
    norm_num
  have hendB : jsAdd (2 ^ 53 - 9) 10 = 2 ^ 53 := by decide
  constructor
  · obtain ⟨s', hok, hhs⟩ := onMouseUp_active_hotspots
      { designerEnv with videoTime := some (10 ^ 18) } drawingState designerRect
      { x := 100, y := 100, w := 200, h := 150 } rfl rfl rfl
    have hs1 : (newHotspot { designerEnv with videoTime := some (10 ^ 18) } designerRect
        { x := 100, y := 100, w := 200, h := 150 } drawingState).timeStart = 10 ^ 18 := hstartA
    have hs2 : (newHotspot { designerEnv with videoTime := some (10 ^ 18) } designerRect
        { x := 100, y := 100, w := 200, h := 150 } drawingState).timeEnd = 10 ^ 18 := by
      show jsAdd (timeStartOf (some ((10 : ℚ) ^ 18))) 10 = 10 ^ 18
      rw [hstartA, hendA]
    refine ⟨s', _, hok, hhs, hs1, hs2, ?_, ?_⟩
    · rw [hs1, hs2]; norm_num
    · rw [hs1, hs2]; norm_num
  · obtain ⟨s', hok, hhs⟩ := onMouseUp_active_hotspots
      { designerEnv with videoTime := some (2 ^ 53 - 9) } drawingState designerRect
      { x := 100, y := 100, w := 200, h := 150 } rfl rfl rfl
    have hs1 : (newHotspot { designerEnv with videoTime := some (2 ^ 53 - 9) } designerRect
        { x := 100, y := 100, w := 200, h := 150 } drawingState).timeStart = 2 ^ 53 - 9 :=
      hstartB
    have hs2 : (newHotspot { designerEnv with videoTime := some (2 ^ 53 - 9) } designerRect
        { x := 100, y := 100, w := 200, h := 150 } drawingState).timeEnd = 2 ^ 53 := by
      show jsAdd (timeStartOf (some ((2 : ℚ) ^ 53 - 9))) 10 = 2 ^ 53
      rw [hstartB, hendB]
    refine ⟨s', _, hok, hhs, hs1, hs2, ?_, ?_⟩
    · rw [hs1, hs2]; norm_num
    · rw [hs1, hs2]; norm_num

/-- C4, amended: for every playback time `t`, the hotspot `onMouseUp` commits has
`timeStart = floor(max(0, t))` (the specification's formula), a non-negative integer, and
the code's `max(0, floor(t))` equals `floor(max(0, t))`; when `floor(max(0, t)) + 10` is
at most `2 ^ 53`, `timeEnd = timeStart + 10` and `timeEnd - timeStart = 10`. -/
theorem onMouseUp_time_window (env : Env) (s : State) (rect : DOMRect) (raw : RawRect)
    (t : ℚ) (hdraw : s.isDrawing = true) (hraw : s.tempRect = some raw)
    (hrect : env.container = some rect) (ht : env.videoTime = some t) :
    ∃ s' hs, onMouseUp env s = .ok s' ∧ s'.hotspots = s.hotspots ++ [hs] ∧
      hs.timeStart = specTimeStart t ∧ hs.timeStart = ⌊max 0 t⌋ ∧
      0 ≤ hs.timeStart ∧ max 0 ⌊t⌋ = ⌊max 0 t⌋ ∧
      (⌊max 0 t⌋ + 10 ≤ 2 ^ 53 →
        hs.timeEnd = hs.timeStart + 10 ∧ hs.timeEnd - hs.timeStart = 10) := by
  obtain ⟨s', hok, hhs⟩ := onMouseUp_active_hotspots env s rect raw hdraw hrect hraw
  have hstart : (newHotspot env rect raw s).timeStart = ⌊max 0 t⌋ := by
    show timeStartOf env.videoTime = _
    rw [ht, timeStartOf, currentTimeOr0_some, floor_max_zero]
  have hnonneg : 0 ≤ (newHotspot env rect raw s).timeStart := by
    rw [hstart]
    exact Int.floor_nonneg.mpr (le_max_left _ _)
  refine ⟨s', _, hok, hhs, hstart, hstart, hnonneg, floor_max_zero t, ?_⟩
  intro hbound
  have hend : (newHotspot env rect raw s).timeEnd
      = (newHotspot env rect raw s).timeStart + 10 := by
    show jsAdd (newHotspot env rect raw s).timeStart 10 = _
    exact jsAdd_exact _ 10 (by omega) (by rw [hstart]; exact hbound)
  exact ⟨hend, by rw [hend]; omega⟩

theorem onMouseUp_time_window_witness :
    ∃ s' hs, onMouseUp designerEnv drawingState = .ok s' ∧
      s'.hotspots = drawingState.hotspots ++ [hs] ∧
      hs.timeStart = specTimeStart (127 / 10) ∧ hs.timeStart = ⌊max 0 (127 / 10 : ℚ)⌋ ∧
      0 ≤ hs.timeStart ∧ max 0 ⌊(127 / 10 : ℚ)⌋ = ⌊max 0 (127 / 10 : ℚ)⌋ ∧
      ⌊max 0 (127 / 10 : ℚ)⌋ + 10 ≤ 2 ^ 53 ∧
      hs.timeEnd = hs.timeStart + 10 ∧ hs.timeEnd - hs.timeStart = 10 := by
  obtain ⟨s', hs, h1, h2, h3, h4, h5, h6, h7⟩ :=
    onMouseUp_time_window designerEnv drawingState designerRect
      { x := 100, y := 100, w := 200, h := 150 } (127 / 10) rfl rfl rfl rfl
  have hbound : ⌊max 0 (127 / 10 : ℚ)⌋ + 10 ≤ 2 ^ 53 := by
    have hfl : ⌊max 0 (127 / 10 : ℚ)⌋ = 12 := by
      rw [Int.floor_eq_iff]
      norm_num
    rw [hfl]
    norm_num
  exact ⟨s', hs, h1, h2, h3, h4, h5, h6, hbound, h7 hbound⟩

/-! ## C5 -/

theorem clamp01_eq (v : ℚ) : max 0 (min 1 v) = clamp v 0 1 := by
  unfold clamp
  split_ifs with h1 h2
  · rw [min_eq_right (by linarith), max_eq_left h1.le]
  · rw [min_eq_left h2.le, max_eq_right zero_le_one]
  · rw [min_eq_right (not_lt.mp h2), max_eq_right (not_lt.mp h1)]

theorem dragRect_append_last (rect : DOMRect) (down last : MouseEvent)
    (moves : List MouseEvent) :
    dragRect rect down (moves ++ [last]) =
      { x := down.clientX - rect.left, y := down.clientY - rect.top
        w := last.clientX - rect.left - (down.clientX - rect.left)
        h := last.clientY - rect.top - (down.clientY - rect.top) } := by
  simp [dragRect]

theorem clamp01_of_mem (v : ℚ) (h0 : 0 ≤ v) (h1 : v ≤ 1) : max 0 (min 1 v) = v := by
  rw [min_eq_right h1, max_eq_right h0]

theorem floor_demo_time : ⌊(127 / 10 : ℚ)⌋ = 12 := by
  rw [Int.floor_eq_iff]
  norm_num

/-- C5: on the designer page, over a surface of positive width `W` and height `H`, a
mouse-down at the anchor `a`, any moves ending at the pointer `p`, then a mouse-up commit
one hotspot with `x = clamp(a.x / W, 0, 1)`, `y = clamp(a.y / H, 0, 1)`,
`w = clamp((p.x - a.x) / W, 0, 1)`, `h = clamp((p.y - a.y) / H, 0, 1)` and the selected
product and action (`a` and `p` being the events' client positions less the surface's
left/top); the drag from (100, 100) to (300, 250) on the 800 by 450 surface at 12.7
seconds with product `p2` and action `addToCart` commits `x = 1/8`, `y = 2/9`, `w = 1/4`,
`h = 1/3`, `timeStart = 12`, `timeEnd = 22`, where `2/9` and `1/3` are `0.222` and `0.333`
to three decimals. -/
theorem drag_commit_normalized (env : Env) (s : State) (rect : DOMRect)
    (down : MouseEvent) (moves : List MouseEvent) (last : MouseEvent)
    (hroute : s.route = "/designer") (hrect : env.container = some rect)
    (hw : 0 < rect.width) (hh : 0 < rect.height) :
    (∃ s' hs, drag env down (moves ++ [last]) s = .ok s' ∧
      s'.hotspots = s.hotspots ++ [hs] ∧
      hs.x = clamp ((down.clientX - rect.left) / rect.width) 0 1 ∧
      hs.y = clamp ((down.clientY - rect.top) / rect.height) 0 1 ∧
      hs.w = clamp (((last.clientX - rect.left) - (down.clientX - rect.left)) / rect.width)
        0 1 ∧
      hs.h = clamp (((last.clientY - rect.top) - (down.clientY - rect.top)) / rect.height)
        0 1 ∧
      hs.productId = s.selectedProduct ∧ hs.action = s.selectedAction) ∧
    ((drag designerEnv (eventAt 100 100) [eventAt 300 250] designerState).map (·.hotspots)
        = .ok [{ id := designerEnv.now, x := 1 / 8, y := 2 / 9, w := 1 / 4, h := 1 / 3
                 timeStart := 12, timeEnd := 22, productId := "p2"
                 action := "addToCart" }] ∧
      (1 / 8 : ℚ) = 125 / 1000 ∧ (1 / 4 : ℚ) = 250 / 1000 ∧
      round ((2 / 9 : ℚ) * 1000) = 222 ∧ round ((1 / 3 : ℚ) * 1000) = 333) := by
  constructor
  · obtain ⟨s', hok, hhs⟩ := drag_designer env s rect down (moves ++ [last]) hroute hrect
    rw [dragRect_append_last] at hhs
    exact ⟨s', _, hok, hhs, clamp01_eq _, clamp01_eq _, clamp01_eq _, clamp01_eq _, rfl, rfl⟩
  · refine ⟨?_, by norm_num, by norm_num, ?_, ?_⟩
    · rw [drag_designer_eq designerEnv designerState designerRect _ _ rfl rfl]
      rw [onMouseUp_active designerEnv _ designerRect _ rfl rfl rfl]
      simp [Except.map, saveHotspotsToMedia, newHotspot, dragRect, designerState,
        initialState, designerEnv, designerRect, eventAt, timeStartOf, currentTimeOr0]
      rw [floor_demo_time]
      refine ⟨?_, ?_, ?_, ?_, by norm_num, by norm_num [jsAdd_demo]⟩ <;>
        rw [clamp01_of_mem _ (by norm_num) (by norm_num)] <;> norm_num
    · rw [round_eq, Int.floor_eq_iff]
      norm_num
    · rw [round_eq, Int.floor_eq_iff]
      norm_num

theorem drag_commit_normalized_witness :
    (∃ s' hs, drag designerEnv (eventAt 700 400) ([eventAt 5 5] ++ [eventAt 900 (-20)])
        designerState = .ok s' ∧
      s'.hotspots = designerState.hotspots ++ [hs] ∧
      hs.x = clamp (((eventAt 700 400).clientX - designerRect.left) / designerRect.width) 0 1 ∧
      hs.y = clamp (((eventAt 700 400).clientY - designerRect.top) / designerRect.height) 0 1 ∧
      hs.w = clamp ((((eventAt 900 (-20)).clientX - designerRect.left)
        - ((eventAt 700 400).clientX - designerRect.left)) / designerRect.width) 0 1 ∧
      hs.h = clamp ((((eventAt 900 (-20)).clientY - designerRect.top)
        - ((eventAt 700 400).clientY - designerRect.top)) / designerRect.height) 0 1 ∧
      hs.productId = designerState.selectedProduct ∧
      hs.action = designerState.selectedAction) :=
  (drag_commit_normalized designerEnv designerState designerRect (eventAt 700 400)
    [eventAt 5 5] (eventAt 900 (-20)) rfl rfl (by norm_num [designerRect])
    (by norm_num [designerRect])).1

/-! ## C6 -/

theorem publishUpdater_idempotent (mediaId : Nat) (ml : List MediaItem) :
    publishUpdater mediaId (publishUpdater mediaId ml) = publishUpdater mediaId ml := by
  unfold publishUpdater
  rw [List.map_map]
  apply List.map_congr_left
  intro m _
  by_cases h : m.id = mediaId <;> simp [h]

theorem publishUpdater_status (mediaId : Nat) (ml : List MediaItem) :
    ∀ m ∈ publishUpdater mediaId ml, m.id = mediaId → m.status = "published" := by
  intro m hm hid
  obtain ⟨m0, _, rfl⟩ := List.mem_map.mp hm
  by_cases h : m0.id = mediaId
  · simp [h]
  · simp [h] at hid

theorem publishUpdater_ids (mediaId : Nat) (ml : List MediaItem) :
    (publishUpdater mediaId ml).map (·.id) = ml.map (·.id) := by
  unfold publishUpdater
  rw [List.map_map]
  apply List.map_congr_left
  intro m _
  by_cases h : m.id = mediaId <;> simp [h]

/-- C6: `publishMedia` is idempotent: applied twice it gives the same media list (and the
same state) as applied once; the media list keeps its ids in place, and after one or two
applications every item with the targeted id has status `published`. -/
theorem publishMedia_idempotent (s : State) (mediaId : Nat) :
    (publishMedia mediaId (publishMedia mediaId s)).mediaList
      = (publishMedia mediaId s).mediaList ∧
    publishMedia mediaId (publishMedia mediaId s) = publishMedia mediaId s ∧
    (publishMedia mediaId s).mediaList.map (·.id) = s.mediaList.map (·.id) ∧
    (∀ m ∈ (publishMedia mediaId s).mediaList, m.id = mediaId → m.status = "published") ∧
    (∀ m ∈ (publishMedia mediaId (publishMedia mediaId s)).mediaList,
      m.id = mediaId → m.status = "published") := by
  have h2 : publishMedia mediaId (publishMedia mediaId s) = publishMedia mediaId s := by
    simp [publishMedia, publishUpdater_idempotent]
  refine ⟨by rw [h2], h2, publishUpdater_ids mediaId s.mediaList,
    publishUpdater_status mediaId s.mediaList, ?_⟩
  rw [h2]
  exact publishUpdater_status mediaId s.mediaList

/-! ## C7 -/

theorem MediaOp.run_keeps_published (op : MediaOp) (s : State) (i : Nat) (m : MediaItem)
    (hm : s.mediaList[i]? = some m) (hp : m.status = "published") :
    ∃ m', (op.run s).mediaList[i + op.prepended]? = some m' ∧
      m'.id = m.id ∧ m'.title = m.title ∧ m'.status = "published" := by
  cases op with
  | save mediaId hotspotsPayload =>
    refine ⟨if m.id = mediaId then { m with hotspots := hotspotsPayload } else m, ?_, ?_⟩
    · show (saveHotspotsUpdater mediaId hotspotsPayload s.mediaList)[i + 0]? = _
      simp [saveHotspotsUpdater, List.getElem?_map, hm]
    · by_cases h : m.id = mediaId <;> simp [h, hp]
  | publish mediaId =>
    refine ⟨if m.id = mediaId then { m with status := "published" } else m, ?_, ?_⟩
    · show (publishUpdater mediaId s.mediaList)[i + 0]? = _
      simp [publishUpdater, List.getElem?_map, hm]
    · by_cases h : m.id = mediaId <;> simp [h, hp]
  | upload file env =>
    cases file with
    | none => exact ⟨m, hm, rfl, rfl, hp⟩
    | some name =>
      refine ⟨m, ?_, rfl, rfl, hp⟩
      show (newMedia env.now name :: s.mediaList)[i + 1]? = _
      rw [List.getElem?_cons_succ, hm]

/-- C7: along every sequence of operations on the media list (`saveHotspotsToMedia` on any
id and payload, `publishMedia` on any id, the upload handler with or without a file), an
item that is `published` before the sequence is still in the list after it, moved back by
one place per uploaded file, with its id and title and with status `published`, hence not
`draft`. -/
theorem published_stays_published (ops : List MediaOp) (s : State) (i : Nat)
    (m : MediaItem) (hm : s.mediaList[i]? = some m) (hp : m.status = "published") :
    ∃ m', (runOps ops s).mediaList[i + prependedBy ops]? = some m' ∧
      m'.id = m.id ∧ m'.title = m.title ∧ m'.status = "published" ∧
      m'.status ≠ "draft" := by
  induction ops generalizing s i m with
  | nil => exact ⟨m, hm, rfl, rfl, hp, by rw [hp]; decide⟩
  | cons op ops ih =>
    obtain ⟨m1, hm1, hid1, htitle1, hp1⟩ := op.run_keeps_published s i m hm hp
    obtain ⟨m', hm', hid', htitle', hp', hd'⟩ := ih (op.run s) (i + op.prepended) m1 hm1 hp1
    refine ⟨m', ?_, hid'.trans hid1, htitle'.trans htitle1, hp', hd'⟩
    have hidx : i + prependedBy (op :: ops) = i + op.prepended + prependedBy ops := by
      simp [prependedBy, Nat.add_assoc]
    rw [hidx]
    exact hm'

theorem published_stays_published_witness :
    ∃ m', (runOps [.upload (some "clip.mp4") designerEnv, .save 1 [], .upload none designerEnv,
        .publish 7] (publishMedia 1 initialState)).mediaList[0 +
          prependedBy [.upload (some "clip.mp4") designerEnv, .save 1 [],
            .upload none designerEnv, .publish 7]]? = some m' ∧
      m'.id = 1 ∧ m'.title = "Promo: Summer Tee" ∧ m'.status = "published" ∧
      m'.status ≠ "draft" :=
  published_stays_published
    [.upload (some "clip.mp4") designerEnv, .save 1 [], .upload none designerEnv, .publish 7]
    (publishMedia 1 initialState) 0
    { id := 1, title := "Promo: Summer Tee"
      thumb := "https://source.unsplash.com/400x250/?man,tshirt,portrait"
      videoUrl := SAMPLE_VIDEO, status := "published", hotspots := [] }
    rfl rfl

/-! ## C8 -/

theorem clamp01_sum_le_one (a p W : ℚ) (hW : 0 < W) (ha0 : 0 ≤ a) (ha1 : a ≤ W)
    (hp : p ≤ W) :
    max 0 (min 1 (a / W)) = a / W ∧
    max 0 (min 1 (a / W)) + max 0 (min 1 ((p - a) / W)) ≤ 1 := by
  have hx0 : 0 ≤ a / W := div_nonneg ha0 hW.le
  have hx1 : a / W ≤ 1 := (div_le_one hW).mpr ha1
  have hx : max 0 (min 1 (a / W)) = a / W := clamp01_of_mem _ hx0 hx1
  refine ⟨hx, ?_⟩
  rw [hx]
  by_cases hpa : p ≤ a
  · have hneg : (p - a) / W ≤ 0 := div_nonpos_of_nonpos_of_nonneg (by linarith) hW.le
    rw [min_eq_right (hneg.trans zero_le_one), max_eq_left hneg]
    linarith
  · have hpos : 0 ≤ (p - a) / W := div_nonneg (by linarith) hW.le
    have hle : (p - a) / W ≤ 1 := (div_le_one hW).mpr (by linarith)
    rw [clamp01_of_mem _ hpos hle, ← add_div]
    exact (div_le_one hW).mpr (by linarith)

/-- C8, as stated, fails: on the 800 by 450 surface the drag from (700, 100), inside the
surface, to (1500, 600), outside it, commits `x = 7/8`, `w = 1`, `y = 2/9`, `h = 1`, so
`x + w = 15/8` and `y + h = 11/9`, both above 1. -/
theorem drag_past_edge_not_clipped :
    ∃ hs : Hotspot,
      (drag designerEnv (eventAt 700 100) [eventAt 1500 600] designerState).map (·.hotspots)
        = .ok [hs] ∧
      ((0 : ℚ) ≤ 700 ∧ (700 : ℚ) ≤ designerRect.width ∧
        (0 : ℚ) ≤ 100 ∧ (100 : ℚ) ≤ designerRect.height) ∧
      hs.x + hs.w = 15 / 8 ∧ hs.y + hs.h = 11 / 9 ∧
      ¬ (hs.x + hs.w ≤ 1) ∧ ¬ (hs.y + hs.h ≤ 1) := by
  refine ⟨{ id := designerEnv.now, x := 7 / 8, y := 2 / 9, w := 1, h := 1
            timeStart := 12, timeEnd := 22, productId := "p2", action := "addToCart" },
    ?_, by norm_num [designerRect], by norm_num, by norm_num, by norm_num, by norm_num⟩
  rw [drag_designer_eq designerEnv designerState designerRect _ _ rfl rfl]
  rw [onMouseUp_active designerEnv _ designerRect _ rfl rfl rfl]
  simp [Except.map, saveHotspotsToMedia, newHotspot, dragRect, designerState,
    initialState, designerEnv, designerRect, eventAt, timeStartOf, currentTimeOr0]
  rw [floor_demo_time]
  refine ⟨?_, ?_, ?_, ?_, by norm_num, by norm_num [jsAdd_demo]⟩
  · rw [clamp01_of_mem _ (by norm_num) (by norm_num)]; norm_num
  · rw [clamp01_of_mem _ (by norm_num) (by norm_num)]; norm_num
  · rw [min_eq_left (by norm_num)]; norm_num
  · rw [min_eq_left (by norm_num)]; norm_num

/-- C8, amended: when the anchor lies inside a surface of positive width and height and
the pointer ends no further right than the surface's right edge and no lower than its
bottom edge, the committed hotspot has `x = a.x / W`, `y = a.y / H` and satisfies
`x + w ≤ 1` and `y + h ≤ 1`. -/
theorem drag_ending_before_edges_clipped (env : Env) (s : State) (rect : DOMRect)
    (down : MouseEvent) (moves : List MouseEvent) (last : MouseEvent)
    (hroute : s.route = "/designer") (hrect : env.container = some rect)
    (hw : 0 < rect.width) (hh : 0 < rect.height)
    (hax0 : 0 ≤ down.clientX - rect.left) (hax1 : down.clientX - rect.left ≤ rect.width)
    (hay0 : 0 ≤ down.clientY - rect.top) (hay1 : down.clientY - rect.top ≤ rect.height)
    (hpx : last.clientX - rect.left ≤ rect.width)
    (hpy : last.clientY - rect.top ≤ rect.height) :
    ∃ s' hs, drag env down (moves ++ [last]) s = .ok s' ∧
      s'.hotspots = s.hotspots ++ [hs] ∧
      hs.x = (down.clientX - rect.left) / rect.width ∧
      hs.y = (down.clientY - rect.top) / rect.height ∧
      hs.x + hs.w ≤ 1 ∧ hs.y + hs.h ≤ 1 := by
  obtain ⟨s', hok, hhs⟩ := drag_designer env s rect down (moves ++ [last]) hroute hrect
  rw [dragRect_append_last] at hhs
  have hX := clamp01_sum_le_one _ (last.clientX - rect.left) _ hw hax0 hax1 hpx
  have hY := clamp01_sum_le_one _ (last.clientY - rect.top) _ hh hay0 hay1 hpy
  exact ⟨s', _, hok, hhs, hX.1, hY.1, hX.2, hY.2⟩

theorem drag_ending_before_edges_clipped_witness :
    ∃ s' hs, drag designerEnv (eventAt 700 100) ([] ++ [eventAt 800 (-30)]) designerState
        = .ok s' ∧
      s'.hotspots = designerState.hotspots ++ [hs] ∧
      hs.x = ((eventAt 700 100).clientX - designerRect.left) / designerRect.width ∧
      hs.y = ((eventAt 700 100).clientY - designerRect.top) / designerRect.height ∧
      hs.x + hs.w ≤ 1 ∧ hs.y + hs.h ≤ 1 :=
  drag_ending_before_edges_clipped designerEnv designerState designerRect (eventAt 700 100)
    [] (eventAt 800 (-30)) rfl rfl (by norm_num [designerRect]) (by norm_num [designerRect])
    (by norm_num [designerRect, eventAt]) (by norm_num [designerRect, eventAt])
    (by norm_num [designerRect, eventAt]) (by norm_num [designerRect, eventAt])
    (by norm_num [designerRect, eventAt]) (by norm_num [designerRect, eventAt])

/-! ## C9 -/

theorem clamp01_of_neg (d W : ℚ) (hW : 0 < W) (hd : d < 0) : max 0 (min 1 (d / W)) = 0 := by
  have hneg : d / W ≤ 0 := div_nonpos_of_nonpos_of_nonneg hd.le hW.le
  rw [min_eq_right (hneg.trans zero_le_one), max_eq_left hneg]

theorem onMouseUp_appends (env : Env) (s s' : State) (hs : Hotspot)
    (hok : onMouseUp env s = .ok s') (happ : s'.hotspots = s.hotspots ++ [hs]) :
    ∃ rect raw, hs = newHotspot env rect raw s := by
  unfold onMouseUp at hok
  have hlen : ∀ l : List Hotspot, l ≠ l ++ [hs] := fun l h => by
    have := congrArg List.length h
    simp at this
  cases hdraw : s.isDrawing with
  | false =>
    simp [hdraw] at hok
    subst hok
    exact absurd happ (hlen _)
  | true =>
    cases hrect : env.container with
    | none => simp [hdraw, hrect] at hok
    | some rect =>
      cases hraw : s.tempRect with
      | none =>
        simp [hdraw, hrect, hraw] at hok
        subst hok
        exact absurd happ (hlen _)
      | some raw =>
        simp [hdraw, hrect, hraw] at hok
        subst hok
        refine ⟨rect, raw, ?_⟩
        have : s.hotspots ++ [newHotspot env rect raw s] = s.hotspots ++ [hs] := happ
        simpa using (List.append_cancel_left this).symm

/-- C9, as stated, fails: no run of `onMouseUp` commits a hotspot with a negative `w` or a
negative `h`, whatever the drag and the surface; the drag toward the top-left from
(300, 250) to (100, 100) on the 800 by 450 surface commits `w = 0` and `h = 0`. -/
theorem onMouseUp_never_commits_negative_size :
    (¬ ∃ (env : Env) (s s' : State) (hs : Hotspot),
      onMouseUp env s = .ok s' ∧ s'.hotspots = s.hotspots ++ [hs] ∧ (hs.w < 0 ∨ hs.h < 0)) ∧
    (drag designerEnv (eventAt 300 250) [eventAt 100 100] designerState).map (·.hotspots)
      = .ok [{ id := designerEnv.now, x := 3 / 8, y := 5 / 9, w := 0, h := 0
               timeStart := 12, timeEnd := 22, productId := "p2", action := "addToCart" }] := by
  constructor
  · rintro ⟨env, s, s', hs, hok, happ, hneg⟩
    obtain ⟨rect, raw, rfl⟩ := onMouseUp_appends env s s' hs hok happ
    rcases hneg with h | h
    · exact absurd (clamp01_bounds (raw.w / rect.width)).1 (not_le.mpr h)
    · exact absurd (clamp01_bounds (raw.h / rect.height)).1 (not_le.mpr h)
  · rw [drag_designer_eq designerEnv designerState designerRect _ _ rfl rfl]
    rw [onMouseUp_active designerEnv _ designerRect _ rfl rfl rfl]
    simp [Except.map, saveHotspotsToMedia, newHotspot, dragRect, designerState,
      initialState, designerEnv, designerRect, eventAt, timeStartOf, currentTimeOr0]
    rw [floor_demo_time]
    refine ⟨?_, ?_, ?_, ?_, by norm_num, by norm_num [jsAdd_demo]⟩
    · rw [clamp01_of_mem _ (by norm_num) (by norm_num)]; norm_num
    · rw [clamp01_of_mem _ (by norm_num) (by norm_num)]; norm_num
    · right; norm_num
    · right; norm_num

/-- C9, amended: the sign is not stored. On a surface of positive size the committed `w`
and `h` are never negative; a drag whose final pointer x is less than the anchor x
commits `w = 0`, and one whose final pointer y is less than the anchor y commits
`h = 0`. -/
theorem drag_toward_top_left_commits_zero (env : Env) (s : State) (rect : DOMRect)
    (down : MouseEvent) (moves : List MouseEvent) (last : MouseEvent)
    (hroute : s.route = "/designer") (hrect : env.container = some rect)
    (hw : 0 < rect.width) (hh : 0 < rect.height) :
    ∃ s' hs, drag env down (moves ++ [last]) s = .ok s' ∧
      s'.hotspots = s.hotspots ++ [hs] ∧
      0 ≤ hs.w ∧ 0 ≤ hs.h ∧
      (last.clientX - rect.left < down.clientX - rect.left → hs.w = 0) ∧
      (last.clientY - rect.top < down.clientY - rect.top → hs.h = 0) := by
  obtain ⟨s', hok, hhs⟩ := drag_designer env s rect down (moves ++ [last]) hroute hrect
  rw [dragRect_append_last] at hhs
  refine ⟨s', _, hok, hhs, (clamp01_bounds _).1, (clamp01_bounds _).1, ?_, ?_⟩
  · intro hlt
    exact clamp01_of_neg (last.clientX - rect.left - (down.clientX - rect.left)) _ hw
      (by linarith)
  · intro hlt
    exact clamp01_of_neg (last.clientY - rect.top - (down.clientY - rect.top)) _ hh
      (by linarith)

theorem drag_toward_top_left_commits_zero_witness :
    ∃ s' hs, drag designerEnv (eventAt 300 250) ([eventAt 200 200] ++ [eventAt 100 100])
        designerState = .ok s' ∧
      s'.hotspots = designerState.hotspots ++ [hs] ∧
      0 ≤ hs.w ∧ 0 ≤ hs.h ∧
      ((eventAt 100 100).clientX - designerRect.left
          < (eventAt 300 250).clientX - designerRect.left → hs.w = 0) ∧
      ((eventAt 100 100).clientY - designerRect.top
          < (eventAt 300 250).clientY - designerRect.top → hs.h = 0) :=
  drag_toward_top_left_commits_zero designerEnv designerState designerRect
    (eventAt 300 250) [eventAt 200 200] (eventAt 100 100) rfl rfl
    (by norm_num [designerRect]) (by norm_num [designerRect])

/-! ## C10 -/

theorem onMouseUp_null_container (env : Env) (s : State) (hdraw : s.isDrawing = true)
    (hrect : env.container = none) :
    onMouseUp env s = .error .typeError := by
  simp [onMouseUp, hdraw, hrect]

/-- C10, as stated, fails: with a drag session active and `containerRef.current` equal to
`null` (no surface to measure), `onMouseUp` throws a `TypeError` instead of returning
silently. The read at line 97 is unguarded, as are the reads of `onMouseDown` (line 73)
and `onMouseMove` (line 83). -/
theorem onMouseUp_unmounted_surface_faults :
    drawingState.isDrawing = true ∧ unmountedEnv.container = none ∧
    onMouseUp unmountedEnv drawingState = .error .typeError ∧
    onMouseDown unmountedEnv (eventAt 10 10) drawingState = .error .typeError ∧
    onMouseMove unmountedEnv (eventAt 10 10) drawingState = .error .typeError :=
  ⟨rfl, rfl, rfl, rfl, rfl⟩

/-- C10, amended: without an active drag session `onMouseUp` is a silent no-op, whatever
the surface (mounted or not): it returns without a fault, the state it leaves is the state
it found, so there is no new hotspot, the designer's collection is unchanged and every
media item, with its hotspots, is unchanged. -/
theorem onMouseUp_without_session (env : Env) (s : State) (hdraw : s.isDrawing = false) :
    onMouseUp env s = .ok s ∧
    ∀ s', onMouseUp env s = .ok s' →
      s'.hotspots = s.hotspots ∧ s'.mediaList = s.mediaList ∧
      s'.mediaList.map (·.hotspots) = s.mediaList.map (·.hotspots) ∧ s' = s := by
  have hok : onMouseUp env s = .ok s := by
    simp [onMouseUp, hdraw]
  refine ⟨hok, ?_⟩
  intro s' hs'
  rw [hok] at hs'
  have : s = s' := Except.ok.inj hs'
  subst this
  exact ⟨rfl, rfl, rfl, rfl⟩

theorem onMouseUp_without_session_witness :
    designerState.isDrawing = false ∧
    onMouseUp unmountedEnv designerState = .ok designerState ∧
    onMouseUp designerEnv designerState = .ok designerState :=
  ⟨rfl, (onMouseUp_without_session unmountedEnv designerState rfl).1,
    (onMouseUp_without_session designerEnv designerState rfl).1⟩

/-! ## C11 -/

/-- C11: on a surface of width `W` and height `H`, `renderHotspotsFor` renders every
hotspot of the media item, and the preview overlay every active hotspot, as the rectangle
`left = x * W`, `top = y * H`, `width = max(8, |w| * W)`, `height = max(8, |h| * H)`; the
overlay is what `renderHotspotsFor` renders for the active hotspots; every rendered width
and height is at least 8, and a hotspot with `w = h = 0` renders 8 by 8. -/
theorem renderers_same_pixel_rect (env : Env) (rect : DOMRect) (media : MediaItem) (t : ℤ) :
    renderHotspotsFor { env with container := some rect } (some media)
      = some (media.hotspots.map fun h => specPixelRect 8 h rect.width rect.height) ∧
    previewOverlay { env with container := some rect } media t
      = (activeHotspots media.hotspots t).map
          (fun h => some (specPixelRect 8 h rect.width rect.height)) ∧
    (renderHotspotsFor { env with container := some rect }
        (some { media with hotspots := activeHotspots media.hotspots t })).map
      (fun rs => rs.map some) = some (previewOverlay { env with container := some rect } media t) ∧
    (∀ rs, renderHotspotsFor { env with container := some rect } (some media) = some rs →
      ∀ r ∈ rs, 8 ≤ r.width ∧ 8 ≤ r.height) ∧
    (∀ r, some r ∈ previewOverlay { env with container := some rect } media t →
      8 ≤ r.width ∧ 8 ≤ r.height) ∧
    (∀ h : Hotspot,
      renderHotspotsFor { env with container := some rect }
          (some { media with hotspots := [{ h with w := 0, h := 0 }] })
        = some [{ left := h.x * rect.width, top := h.y * rect.height
                  width := 8, height := 8 }] ∧
      previewOverlay { env with container := some rect }
          { media with hotspots := [{ h with w := 0, h := 0, timeStart := t, timeEnd := t }] } t
        = [some { left := h.x * rect.width, top := h.y * rect.height
                  width := 8, height := 8 }]) := by
  refine ⟨rfl, rfl, ?_, ?_, ?_, ?_⟩
  · simp [renderHotspotsFor, previewOverlay, List.map_map, Function.comp_def]
  · intro rs hrs r hr
    have hrs' : rs = media.hotspots.map fun h => specPixelRect 8 h rect.width rect.height :=
      (Option.some.inj hrs).symm
    subst hrs'
    obtain ⟨h, _, rfl⟩ := List.mem_map.mp hr
    exact ⟨le_max_left _ _, le_max_left _ _⟩
  · intro r hr
    obtain ⟨h, _, hh⟩ := List.mem_map.mp hr
    have : r = specPixelRect 8 h rect.width rect.height := (Option.some.inj hh).symm
    subst this
    exact ⟨le_max_left _ _, le_max_left _ _⟩
  · intro h
    constructor
    · simp [renderHotspotsFor]
    · simp [previewOverlay, activeHotspots]

/-! ## C12 -/

theorem saveHotspotsUpdater_getElem (mediaId : Nat) (payload : List Hotspot)
    (ml : List MediaItem) (i : Nat) (m : MediaItem) (hm : ml[i]? = some m) :
    ∃ m', (saveHotspotsUpdater mediaId payload ml)[i]? = some m' ∧
      m'.id = m.id ∧ m'.title = m.title ∧ m'.status = m.status ∧
      m'.thumb = m.thumb ∧ m'.videoUrl = m.videoUrl ∧
      (m.id = mediaId → m'.hotspots = payload) ∧ (m.id ≠ mediaId → m' = m) := by
  refine ⟨if m.id = mediaId then { m with hotspots := payload } else m, ?_, ?_⟩
  · simp [saveHotspotsUpdater, List.getElem?_map, hm]
  · by_cases h : m.id = mediaId <;> simp [h]

/-- C12: with the surface mounted, `onMouseUp` in an active drag session returns a state
whose designer collection is the old one with exactly one new hotspot added last (earlier
hotspots unchanged, in place) and whose media list is the old one passed through
`saveHotspotsToMedia` with the new collection; `saveHotspotsToMedia` keeps the length of
the media list and, at every position, the item's id, title, status, thumb and video,
gives an item with the selected id the new collection as its hotspots and leaves an item
with another id as it was; a mouse-down immediately followed by a mouse-up on a surface
of positive size commits such a hotspot too, with `w = h = 0`. -/
theorem onMouseUp_appends_and_saves (env : Env) (rect : DOMRect)
    (hrect : env.container = some rect) :
    (∀ (s : State) (raw : RawRect), s.isDrawing = true → s.tempRect = some raw →
      ∃ s' hs, onMouseUp env s = .ok s' ∧
        s'.hotspots = s.hotspots ++ [hs] ∧
        s'.hotspots.length = s.hotspots.length + 1 ∧
        (∀ i, i < s.hotspots.length → s'.hotspots[i]? = s.hotspots[i]?) ∧
        s'.hotspots[s.hotspots.length]? = some hs ∧
        s'.mediaList
          = (saveHotspotsToMedia s.selectedMediaId (s.hotspots ++ [hs]) s).mediaList) ∧
    (∀ (mediaId : Nat) (next : List Hotspot) (s : State),
      (saveHotspotsToMedia mediaId next s).mediaList.length = s.mediaList.length ∧
      ∀ (i : Nat) (m : MediaItem), s.mediaList[i]? = some m →
        ∃ m', (saveHotspotsToMedia mediaId next s).mediaList[i]? = some m' ∧
          m'.id = m.id ∧ m'.title = m.title ∧ m'.status = m.status ∧
          m'.thumb = m.thumb ∧ m'.videoUrl = m.videoUrl ∧
          (m.id = mediaId → m'.hotspots = next) ∧ (m.id ≠ mediaId → m' = m)) ∧
    (∀ (s : State) (down : MouseEvent), s.route = "/designer" →
      0 < rect.width → 0 < rect.height →
      ∃ s' hs, drag env down [] s = .ok s' ∧
        s'.hotspots = s.hotspots ++ [hs] ∧ hs.w = 0 ∧ hs.h = 0 ∧
        s'.mediaList
          = (saveHotspotsToMedia s.selectedMediaId (s.hotspots ++ [hs]) s).mediaList) := by
  refine ⟨?_, ?_, ?_⟩
  · intro s raw hdraw hraw
    refine ⟨_, newHotspot env rect raw s, onMouseUp_active env s rect raw hdraw hrect hraw,
      rfl, by simp [saveHotspotsToMedia], ?_, ?_, rfl⟩
    · intro i hi
      show (s.hotspots ++ [newHotspot env rect raw s])[i]? = _
      exact List.getElem?_append_left hi
    · show (s.hotspots ++ [newHotspot env rect raw s])[s.hotspots.length]? = _
      simp
  · intro mediaId next s
    refine ⟨by simp [saveHotspotsToMedia, saveHotspotsUpdater], ?_⟩
    intro i m hm
    exact saveHotspotsUpdater_getElem mediaId next s.mediaList i m hm
  · intro s down hroute _ _
    rw [drag_designer_eq env s rect down [] hroute hrect]
    refine ⟨_, newHotspot env rect (dragRect rect down []) s,
      onMouseUp_active env _ rect _ rfl hrect rfl, rfl, ?_, ?_, rfl⟩
    · show max 0 (min 1 ((0 : ℚ) / rect.width)) = 0
      simp
    · show max 0 (min 1 ((0 : ℚ) / rect.height)) = 0
      simp

theorem onMouseUp_appends_and_saves_witness :
    (∃ s' hs, onMouseUp designerEnv drawingState = .ok s' ∧
        s'.hotspots = drawingState.hotspots ++ [hs] ∧
        s'.hotspots.length = drawingState.hotspots.length + 1 ∧
        (∀ i, i < drawingState.hotspots.length →
          s'.hotspots[i]? = drawingState.hotspots[i]?) ∧
        s'.hotspots[drawingState.hotspots.length]? = some hs ∧
        s'.mediaList
          = (saveHotspotsToMedia drawingState.selectedMediaId
              (drawingState.hotspots ++ [hs]) drawingState).mediaList) ∧
    (∃ s' hs, drag designerEnv (eventAt 10 10) [] designerState = .ok s' ∧
        s'.hotspots = designerState.hotspots ++ [hs] ∧ hs.w = 0 ∧ hs.h = 0 ∧
        s'.mediaList
          = (saveHotspotsToMedia designerState.selectedMediaId
              (designerState.hotspots ++ [hs]) designerState).mediaList) :=
  ⟨(onMouseUp_appends_and_saves designerEnv designerRect rfl).1 drawingState
      { x := 100, y := 100, w := 200, h := 150 } rfl rfl,
    (onMouseUp_appends_and_saves designerEnv designerRect rfl).2.2 designerState
      (eventAt 10 10) rfl (by norm_num [designerRect]) (by norm_num [designerRect])⟩

end InteractiveMedia
